import Mathlib

/-!
Verification development for the trail-discovery matching and caching engine
of the travel-companion application (source: `src/app/(tabs)/explore.tsx`,
mirrored in `src/unnamed/part_012`).

The TypeScript source is shallowly embedded here:
* JS strings become `String` (lists of `Char`); the handful of JS string
  primitives used by the source (`toLowerCase`, `trim`, `split(/\s+/)`,
  `includes`, regex whole-word removal `\bword\b`/gi) are modelled
  character-exactly below for ASCII input.
* JS numbers become `ℚ`.  Every constant appearing in the matching code
  (30, 20, 0.2, 4.5, 35, 50, ...) is exactly representable in binary
  floating point or combined through operations whose outcomes the claims
  only use through comparisons with ample slack, so exact rationals are a
  faithful model.
* The two transcendental numeric routines (`calculateDistance`, the
  haversine formula over `Math.sin`/`Math.atan2`, and `nztmToWGS84`, the
  proj4 transverse-Mercator conversion) are not exactly representable in a
  shallow embedding; every definition that calls them takes the
  corresponding numeric function as an explicit parameter (`dist`, `conv`)
  and is otherwise a line-by-line translation.  No claim below depends on
  the numeric value of either routine, only on how the surrounding code
  uses the returned number.
* `fetch`-based I/O is modelled by passing the already-parsed response data
  (e.g. the `data.results` list of a places text search) or an environment
  of response functions to the embedded control flow.
-/

/-! ### JS string primitives -/

/-- JS `\w` (word character) as used by the `\b` word boundary in the noise
word regexes: ASCII letter, digit or underscore. -/
def isWordChar (c : Char) : Bool := c.isAlphanum || c = '_'

/-- JS `String.prototype.toLowerCase` (ASCII). -/
def jsToLower (s : String) : String := ⟨s.data.map Char.toLower⟩

/-- JS `String.prototype.trim`: drop whitespace from both ends. -/
def jsTrim (s : String) : String :=
  ⟨((s.data.dropWhile Char.isWhitespace).reverse.dropWhile Char.isWhitespace).reverse⟩

/-- JS `a.includes(b)`: does `b` occur as a contiguous substring of `a`?
(Structural recursion so that concrete instances reduce in the kernel.) -/
def strIncludesAux (needle : List Char) : List Char → Bool
  | [] => needle.isEmpty
  | c :: cs => needle.isPrefixOf (c :: cs) || strIncludesAux needle cs

def strIncludes (a b : String) : Bool := strIncludesAux b.data a.data

/-- The tokens of `s` produced by JS `s.split(/\s+/).filter(w => w.length > 0)`:
maximal runs of non-whitespace characters.  (`List.splitOnP` splits at every
whitespace character, producing empty pieces inside runs, exactly like
`split(/\s+/)` produces empty strings only at a leading separator; the
`filter` removes the empties in both worlds.) -/
def wsTokens (s : String) : List String :=
  ((s.data.splitOnP Char.isWhitespace).map fun l => (⟨l⟩ : String)).filter (· ≠ "")

/-- JS `s.split(/\s+/)` for an already-trimmed `s` (the only way the source
uses it without a `filter`): a trimmed nonempty string has no leading,
trailing or doubled separators, so the result is `wsTokens s`; splitting the
empty string yields `[""]` in JS. -/
def jsSplitWS (s : String) : List String :=
  if s = "" then [""] else wsTokens s

/-- JS `s.replace(/\s+/g, ' ').trim()`: collapse whitespace runs to single
spaces and trim, i.e. the tokens joined by single spaces. -/
def collapseWS (s : String) : String :=
  String.intercalate " " (wsTokens s)

/-- Case-insensitive match of the pattern `w` against a prefix of `l`;
returns the remainder of `l` after the match. -/
def matchWordCI : List Char → List Char → Option (List Char)
  | [], rest => some rest
  | _ :: _, [] => none
  | w :: ws, c :: cs => if w.toLower = c.toLower then matchWordCI ws cs else none

/-- One pass of JS `s.replace(new RegExp(`\\bword\\b`, 'gi'), '')`: scan the
string left to right; at every position where the previous character (in the
original string) is not a word character, try to match `w` case-insensitively
followed by a non-word character or the end; on a match delete it and resume
after it, otherwise emit the character and advance.  `fuel` only forces
structural recursion; it is always called with `fuel > ` length of the
remaining list, and every step consumes at least one character, so the
`fuel = 0` branch is unreachable. -/
def removeWordAux (w : List Char) : ℕ → Option Char → List Char → List Char
  | 0, _, l => l
  | _ + 1, _, [] => []
  | fuel + 1, prev, c :: cs =>
    let boundaryBefore : Bool := match prev with
      | none => true
      | some p => !(isWordChar p)
    if boundaryBefore then
      match matchWordCI w (c :: cs) with
      | some rest =>
        let boundaryAfter : Bool := match rest with
          | [] => true
          | r :: _ => !(isWordChar r)
        if boundaryAfter then
          removeWordAux w fuel (((c :: cs).take w.length).getLast?) rest
        else c :: removeWordAux w fuel (some c) cs
      | none => c :: removeWordAux w fuel (some c) cs
    else c :: removeWordAux w fuel (some c) cs

/-- JS `s.replace(new RegExp(`\\b${word}\\b`, 'gi'), '')` for a nonempty
`word` (all the noise words are nonempty, so the empty-pattern case never
arises in the source). -/
def removeWord (word : String) (s : String) : String :=
  if word.data = [] then s else ⟨removeWordAux word.data (s.data.length + 1) none s.data⟩

/-! ### Text normalization (`cleanSearchQuery`, explore.tsx lines 394-408) -/

/-- The noise-word vocabulary of `cleanSearchQuery`. -/
def searchNoiseWords : List String :=
  ["track", "trail", "walk", "walking", "scenic", "reserve", "tramping",
   "hike", "hiking", "great", "short", "loop", "circuit"]

/-- Source `cleanSearchQuery` (explore.tsx lines 394-408): strip the noise words as
whole words (case-insensitively, preserving the case of what remains),
collapse whitespace, and append `" hike"` — unless nothing is left, in which
case return the input unchanged. -/
def cleanSearchQuery (trackName : String) : String :=
  let cleaned := searchNoiseWords.foldl (fun acc w => removeWord w acc) trackName
  let cleaned := collapseWS cleaned
  if cleaned.length > 0 then cleaned ++ " hike" else trackName

example : cleanSearchQuery "Track" = "Track" := by decide
example : cleanSearchQuery "Tokatoka Scenic Reserve Track" = "Tokatoka hike" := by decide
example : cleanSearchQuery "MOUNT EDEN TRACK" = "MOUNT EDEN hike" := by decide
example : cleanSearchQuery "Mount  Eden   Track" = "Mount Eden hike" := by decide
example : cleanSearchQuery "Abel Tasman Coast Track" = "Abel Tasman Coast hike" := by decide

/-! ### String similarity (`stringSimilarity`, explore.tsx lines 298-345) -/

/-- The noise-word vocabulary of `stringSimilarity` (a strict subset of the
`cleanSearchQuery` one). -/
def noiseWords : List String :=
  ["track", "trail", "walk", "walking", "scenic", "reserve", "tramping",
   "hike", "hiking"]

/-- Source `cleanString` (the local helper inside `stringSimilarity`): remove the
noise words as whole words, trim, split on whitespace, keep only nonempty
tokens. -/
def cleanString (s : String) : List String :=
  let cleaned := noiseWords.foldl (fun acc w => removeWord w acc) s
  ((jsTrim cleaned).data.splitOnP Char.isWhitespace).map (fun l => (⟨l⟩ : String))
    |>.filter (· ≠ "")

/-- The word-pair test of the `stringSimilarity` match loop:
`word1 === word2 || word1.includes(word2) || word2.includes(word1)`. -/
def wordMatch (w1 w2 : String) : Bool :=
  w1 == w2 || strIncludes w1 w2 || strIncludes w2 w1

/-- The token list `stringSimilarity` actually compares: the cleaned tokens
if any survive, otherwise the raw whitespace-split of the (already
lowercased and trimmed) input. -/
def finalWordsOf (s : String) : List String :=
  let words := cleanString s
  if words.length > 0 then words else jsSplitWS s

/-- The arithmetic tail of `stringSimilarity` on the two final token lists:
count the tokens of the first list that match some token of the second
(the inner loop `break`s at the first match, i.e. each left token counts at
most once), divide by the larger token count, and add the capped 0.2
first-token bonus. -/
def similarityCore (fw1 fw2 : List String) : ℚ :=
  let matchCount := (fw1.filter fun w1 => fw2.any fun w2 => wordMatch w1 w2).length
  let similarity : ℚ := (matchCount : ℚ) / ((max fw1.length fw2.length : ℕ) : ℚ)
  match fw1, fw2 with
  | w1 :: _, w2 :: _ =>
    if wordMatch w1 w2 then min 1 (similarity + 1/5) else similarity
  | _, _ => similarity

/-- Source `stringSimilarity` (explore.tsx lines 298-345): 1 for equal strings after
lowercasing and trimming, otherwise the token-overlap ratio with first-token
bonus.  (The JS constant `0.2` is the dyadic-nearest float to 1/5; all uses
of the result compare it against thresholds with slack far above the float
error, so exact `1/5` is faithful.) -/
def stringSimilarity (str1 str2 : String) : ℚ :=
  let s1 := jsTrim (jsToLower str1)
  let s2 := jsTrim (jsToLower str2)
  if s1 = s2 then 1
  else similarityCore (finalWordsOf s1) (finalWordsOf s2)

/-! ### Candidate scorer (`scoreMatch`, explore.tsx lines 348-391) -/

/-- A raw Google Places text-search result, with exactly the fields
`scoreMatch` and the selector read.  `rating` and `user_ratings_total` are
absent or a number; the JS code tests them with bare truthiness, so the
number 0 behaves as absent there (captured by `ratingTruthy`/`countTruthy`
below).  The geometry is not stored: the only use the source makes of it is
the `calculateDistance` call, which the embedding abstracts as a distance
parameter. -/
structure PlaceResult where
  name : String
  types : Option (List String)
  rating : Option ℚ
  user_ratings_total : Option ℕ
deriving DecidableEq

/-- JS truthiness of the optional `rating` field (`if (result.rating)`). -/
def ratingTruthy : Option ℚ → Bool
  | none => false
  | some r => r != 0

/-- JS truthiness of the optional `user_ratings_total` field. -/
def countTruthy : Option ℕ → Bool
  | none => false
  | some n => n != 0

/-- The fixed relevant-type vocabulary of `scoreMatch`. -/
def relevantTypes : List String :=
  ["tourist_attraction", "natural_feature", "park", "point_of_interest"]

/-- Signal 2 of `scoreMatch`: the distance-banded proximity bonus. -/
def distScore (distance : ℚ) : ℚ :=
  if distance < 1 then 20
  else if distance < 5 then 15
  else if distance < 10 then 10
  else if distance < 20 then 5
  else 0

/-- Signal 3 of `scoreMatch`: `result.types?.some(t => relevantTypes.includes(t))`. -/
def typeScore (types : Option (List String)) : ℚ :=
  match types with
  | some ts => if ts.any (fun t => relevantTypes.contains t) then 10 else 0
  | none => 0

/-- Signal 4 of `scoreMatch`: +30 for a (truthy) rating plus the banded
magnitude bonus. -/
def ratingScore (rating : Option ℚ) : ℚ :=
  if ratingTruthy rating then
    match rating with
    | some r => 30 + (if r ≥ 9/2 then 10 else if r ≥ 4 then 7 else if r ≥ 7/2 then 5 else 0)
    | none => 0
  else 0

/-- Signal 5 of `scoreMatch`: the banded rating-count bonus. -/
def countScore (total : Option ℕ) : ℚ :=
  if countTruthy total then
    match total with
    | some n =>
      if n > 200 then 20 else if n > 100 then 17 else if n > 50 then 14
      else if n > 20 then 10 else if n > 5 then 6 else 0
    | none => 0
  else 0

/-- Source `scoreMatch` (explore.tsx lines 348-391): the additive confidence score
of one places result against one track.  `distance` stands for the value of
`calculateDistance(trackLat, trackLng, result.geometry.location.lat,
result.geometry.location.lng)` (haversine, abstracted — see the header). -/
def scoreMatch (result : PlaceResult) (trackName : String) (distance : ℚ) : ℚ :=
  stringSimilarity trackName result.name * 30
    + distScore distance
    + typeScore result.types
    + ratingScore result.rating
    + countScore result.user_ratings_total

/-! ### Match selector (`searchGooglePlacesForTrack`, explore.tsx lines 411-493)

The embedding covers the decision core of the function: everything from the
scoring loop over `data.results` to the returned value.  The network fetch
is abstracted by passing the parsed `data.results` list directly, and the
per-result haversine call by the `dist` parameter. -/

/-- The loop state: `(bestMatch, bestScore, bestMatchWithRating,
bestScoreWithRating)`, initialised to `(null, 0, null, 0)`. -/
abbrev SelState := Option PlaceResult × ℚ × Option PlaceResult × ℚ

/-- One iteration of the `for (const result of data.results)` loop. -/
def selStep (trackName : String) (dist : PlaceResult → ℚ) (st : SelState)
    (result : PlaceResult) : SelState :=
  let score := scoreMatch result trackName (dist result)
  let (bestMatch, bestScore, bestMatchWithRating, bestScoreWithRating) := st
  let (bestMatch', bestScore') :=
    if score > bestScore then (some result, score) else (bestMatch, bestScore)
  let (bestMatchWithRating', bestScoreWithRating') :=
    if ratingTruthy result.rating && decide (score > bestScoreWithRating) then
      (some result, score)
    else (bestMatchWithRating, bestScoreWithRating)
  (bestMatch', bestScore', bestMatchWithRating', bestScoreWithRating')

/-- The decision core of `searchGooglePlacesForTrack`: score every result,
track the best overall and the best rated result, pick `finalMatch` by the
two-threshold rule, and return the rating payload — which the source guards
with `if (finalMatch && finalMatch.rating)`, so a `finalMatch` without a
(truthy) rating yields `null` exactly like the no-match branch. -/
def searchGooglePlacesForTrack (results : List PlaceResult) (trackName : String)
    (dist : PlaceResult → ℚ) : Option (ℚ × Option ℕ) :=
  let st := results.foldl (selStep trackName dist) (none, 0, none, 0)
  let (bestMatch, bestScore, bestMatchWithRating, bestScoreWithRating) := st
  let finalMatch : Option PlaceResult :=
    if bestMatchWithRating.isSome && decide (bestScoreWithRating ≥ 35) then
      bestMatchWithRating
    else if bestMatch.isSome && decide (bestScore ≥ 50) then bestMatch
    else none
  match finalMatch with
  | some fm =>
    match fm.rating with
    | some r => if r ≠ 0 then some (r, fm.user_ratings_total) else none
    | none => none
  | none => none

/-! ### Query cache (explore.tsx lines 103-208)

`placesCache` is a JS `Map<string, CacheEntry>`; it is modelled extensionally
as a function from keys to optional entries (`Map.get`/`set`/`delete` are
pointwise lookup/update).  `Date.now()` is passed in as `now`, and the
haversine call inside `getCachedPlaces` as the `dist` parameter (same
argument order `lat1 lon1 lat2 lon2` as the source). -/

/-- The screen's category union type. -/
inductive Category where
  | all | food | fuel | camping | attractions | hiking
deriving DecidableEq

/-- The string a `Category` interpolates to in a template literal. -/
def Category.str : Category → String
  | .all => "all"
  | .food => "food"
  | .fuel => "fuel"
  | .camping => "camping"
  | .attractions => "attractions"
  | .hiking => "hiking"

/-- A latitude/longitude pair (`{ latitude, longitude }`). -/
structure LatLng where
  latitude : ℚ
  longitude : ℚ
deriving DecidableEq

/-- Source constant `CACHE_TTL_MS = 5 * 60 * 1000`. -/
def CACHE_TTL_MS : ℤ := 5 * 60 * 1000

/-- Source constant `LOCATION_CHANGE_THRESHOLD_KM = 1`. -/
def LOCATION_CHANGE_THRESHOLD_KM : ℚ := 1

/-- Source `getCacheKey`: the template literal `` `${category}:${searchQuery}` ``. -/
def getCacheKey (category : Category) (searchQuery : String) : String :=
  category.str ++ ":" ++ searchQuery

/-- The `Place` interface (explore.tsx lines 9-31): a Google Places result or
converted DOC track plus the computed fields.  `photos` keeps only the
`photo_reference` strings, `opening_hours` only the `open_now` flag, and
`geometry.location` is flattened to `lat`/`lng` — the code reads nothing
else from them. -/
structure Place where
  place_id : String
  name : String
  types : List String
  vicinity : Option String
  rating : Option ℚ
  user_ratings_total : Option ℕ
  lat : ℚ
  lng : ℚ
  photos : Option (List String)
  opening_hours : Option Bool
  distance : ℚ
  icon : String
  category : Category
  docLink : Option String
  trackDistance : Option String
  walkDuration : Option String
deriving DecidableEq

/-- The `CacheEntry` interface (explore.tsx lines 33-38). -/
structure CacheEntry where
  data : List Place
  timestamp : ℤ
  location : LatLng
  nextPageToken : Option String
deriving DecidableEq

/-- The module-scope `placesCache : Map<string, CacheEntry>`, extensionally. -/
def Cache : Type := String → Option CacheEntry

/-- A fresh `Map`. -/
def emptyCache : Cache := fun _ => none

/-- JS `placesCache.set(key, entry)`. -/
def cacheSet (key : String) (entry : CacheEntry) (c : Cache) : Cache :=
  fun k => if k = key then some entry else c k

/-- JS `placesCache.delete(key)`. -/
def cacheDelete (key : String) (c : Cache) : Cache :=
  fun k => if k = key then none else c k

/-- Source `getCachedPlaces` (explore.tsx lines 162-192): look up, evict on TTL
expiry or on >1 km movement, otherwise return the entry.  Returns the value
the source returns together with the cache as mutated by the call.  `now`
stands for `Date.now()` and `dist` for `calculateDistance`. -/
def getCachedPlaces (dist : ℚ → ℚ → ℚ → ℚ → ℚ) (now : ℤ) (c : Cache)
    (category : Category) (searchQuery : String) (currentLocation : LatLng) :
    Option CacheEntry × Cache :=
  let key := getCacheKey category searchQuery
  match c key with
  | none => (none, c)
  | some cached =>
    if now - cached.timestamp > CACHE_TTL_MS then
      (none, cacheDelete key c)
    else
      let distance := dist cached.location.latitude cached.location.longitude
        currentLocation.latitude currentLocation.longitude
      if distance > LOCATION_CHANGE_THRESHOLD_KM then
        (none, cacheDelete key c)
      else
        (some cached, c)

/-- Source `setCachedPlaces` (explore.tsx lines 194-208): unconditionally overwrite
the key with a fresh-timestamp entry. -/
def setCachedPlaces (now : ℤ) (c : Cache) (category : Category)
    (searchQuery : String) (places : List Place) (location : LatLng)
    (nextPageToken : Option String) : Cache :=
  cacheSet (getCacheKey category searchQuery)
    { data := places, timestamp := now, location := location,
      nextPageToken := nextPageToken } c

/-! ### DOC tracks and the hiking pipeline (explore.tsx lines 40-53, 275-295,
547-578, 782-915) -/

/-- The `DOCTrack` interface (explore.tsx lines 40-53), used both for the
catalog rows and for the `/detail` responses. -/
structure DOCTrack where
  assetId : String
  name : String
  introduction : Option String
  introductionThumbnail : Option String
  distance : Option String
  walkDuration : Option String
  walkDurationCategory : Option (List String)
  walkTrackCategory : Option (List String)
  region : Option (List String)
  staticLink : Option String
  x : ℚ
  y : ℚ
deriving DecidableEq

inductive WalkType where
  | greatWalk | dayWalk | shortWalk
deriving DecidableEq

/-- The string literal each `WalkType` value denotes in the source. -/
def WalkType.str : WalkType → String
  | .greatWalk => "great-walk"
  | .dayWalk => "day-walk"
  | .shortWalk => "short-walk"

/-- The hard-coded Great Walks list of `categorizeWalk`. -/
def greatWalks : List String :=
  ["Milford Track", "Routeburn Track", "Kepler Track", "Abel Tasman Coast Track",
   "Heaphy Track", "Tongariro Northern Circuit", "Whanganui Journey",
   "Lake Waikaremoana Track", "Rakiura Track", "Paparoa Track"]

/-- Source `categorizeWalk` (explore.tsx lines 275-295). -/
def categorizeWalk (durationCategory : Option (List String)) (name : Option String) :
    WalkType :=
  if (match name with
      | some n => greatWalks.any fun gw => strIncludes n gw
      | none => false) then
    WalkType.greatWalk
  else
    match durationCategory with
    | none => WalkType.shortWalk
    | some [] => WalkType.shortWalk
    | some (category :: _) =>
      if strIncludes category "1 hour" || strIncludes category "Under 1 hour" then
        WalkType.shortWalk
      else WalkType.dayWalk

/-- Source `docTrackToPlace` (explore.tsx lines 547-578): convert a DOC track to a
placeholder `Place`.  `conv` stands for `nztmToWGS84` (proj4, abstracted) and
`dist` for `calculateDistance`; both are passed through unchanged.  Note that
`rating`, `user_ratings_total`, `docLink`, `trackDistance` and `walkDuration`
all start absent — they are only ever filled in later by enrichment. -/
def docTrackToPlace (conv : ℚ → ℚ → ℚ × ℚ) (dist : ℚ → ℚ → ℚ → ℚ → ℚ)
    (track : DOCTrack) (userLat userLng : ℚ) : Place :=
  let latlng := conv track.x track.y
  let distance := dist userLat userLng latlng.1 latlng.2
  let walkType := categorizeWalk track.walkDurationCategory (some track.name)
  { place_id := track.assetId
    name := track.name
    types := ["hiking_trail", walkType.str]
    vicinity := track.region.map (fun rs => String.intercalate ", " rs)
    rating := none
    user_ratings_total := none
    lat := latlng.1
    lng := latlng.2
    photos := track.introductionThumbnail.map (fun t => [t])
    opening_hours := none
    distance := distance
    icon := match walkType with
      | .greatWalk => "trophy-outline"
      | .dayWalk => "trail-sign-outline"
      | .shortWalk => "walk-outline"
    category := Category.hiking
    docLink := none
    trackDistance := none
    walkDuration := none }

/-- The ordering the source's `nearbyPlaces.sort((a, b) => a.distance - b.distance)`
establishes (JS `Array.prototype.sort` is a stable ascending sort under this
comparator; `List.insertionSort` is a stable sort, so it is a faithful model). -/
def distLE (a b : Place) : Prop := a.distance ≤ b.distance

instance : DecidableRel distLE := fun a b => inferInstanceAs (Decidable (a.distance ≤ b.distance))

instance : IsTotal Place distLE := ⟨fun a b => le_total a.distance b.distance⟩

instance : IsTrans Place distLE := ⟨fun _ _ _ h h' => le_trans h h'⟩

/-- The free-text filter predicate of the hiking branch
(`p.name.toLowerCase().includes(query) || p.vicinity?.toLowerCase().includes(query)`,
where `query` is the lowercased search text). -/
def matchesSearch (query : String) (p : Place) : Bool :=
  strIncludes (jsToLower p.name) query
    || (match p.vicinity with
        | some v => strIncludes (jsToLower v) query
        | none => false)

/-- Steps 3 of the hiking branch of `loadPlaces` (explore.tsx lines 810-822),
identical to the corresponding lines of `fetchNearbyPlaces` (595-614): keep
records under 50 km, apply the search filter when the trimmed search text is
nonempty, sort ascending by distance, and cap to the first 20. -/
def hikingPipeline (allPlaces : List Place) (searchQuery : String) : List Place :=
  let nearbyPlaces := allPlaces.filter fun p => decide (p.distance < 50)
  let nearbyPlaces :=
    if jsTrim searchQuery ≠ "" then
      nearbyPlaces.filter (matchesSearch (jsToLower searchQuery))
    else nearbyPlaces
  (List.insertionSort distLE nearbyPlaces).take 20

/-! ### Enrichment and the visible list (explore.tsx lines 824-915)

Stage 3 ("enriching") is the `top20.forEach(async (place, index) => ...)`
fan-out.  The outcome of the two per-item network interactions is abstracted
as an environment: `detail id` is what `await fetchDOCTrackDetail(id)`
produced (`none` covering both an error response and a caught exception) and
`googleRating name lat lng` is what the
`Promise.race([searchGooglePlacesForTrack(...), 2 s timeout])` settled to
(`none` covering a no-match `null`, the timeout, and a caught rejection).

Each completed per-item closure calls
`setPlaces(currentPlaces => { const n = [...currentPlaces]; n[index] = updatedPlace; return n })`,
i.e. it overwrites index `index` of whatever list is visible at that moment;
no batch/generation tag is consulted.  The visible list is therefore modelled
as a state folded over an event sequence, and an interleaving of the event
sequences of two batches models a superseding search. -/

structure EnrichEnv where
  detail : String → Option DOCTrack
  googleRating : String → ℚ → ℚ → Option (ℚ × Option ℕ)

/-- The body of one `top20.forEach` closure (explore.tsx lines 830-871):
merge the detail fields if the detail fetch succeeded, then the rating fields
if the rating lookup won its race and matched. -/
def enrichPlace (env : EnrichEnv) (place : Place) : Place :=
  let updatedPlace := place
  let updatedPlace :=
    match env.detail place.place_id with
    | some detail =>
      { updatedPlace with
        photos := match detail.introductionThumbnail with
          | some t => some [t]
          | none => place.photos
        docLink := detail.staticLink
        trackDistance := detail.distance
        walkDuration := detail.walkDuration }
    | none => updatedPlace
  match env.googleRating place.name place.lat place.lng with
  | some ratings => { updatedPlace with
      rating := some ratings.1, user_ratings_total := ratings.2 }
  | none => updatedPlace

/-- A `setPlaces` call of the hiking branch: either the stage-4 publish of a
whole list (line 825) or a stage-5 per-index overwrite (lines 873-877). -/
inductive UIEvent where
  | publish (l : List Place)
  | enrich (index : ℕ) (updatedPlace : Place)
deriving DecidableEq

/-- Effect of one `setPlaces` call on the visible list.  (`List.set` is JS
`n[index] = p` for `index < n.length`; every in-batch update satisfies this,
and the cross-batch counterexample below only uses in-range indices.) -/
def applyUIEvent (cur : List Place) : UIEvent → List Place
  | .publish l => l
  | .enrich index updatedPlace => cur.set index updatedPlace

/-- The visible list after a sequence of `setPlaces` calls. -/
def runUI (init : List Place) (events : List UIEvent) : List Place :=
  events.foldl applyUIEvent init

/-- Everything one run of the hiking branch of `loadPlaces` (explore.tsx
lines 801-891) produces, for a given environment. -/
structure HikingRun where
  published : List Place
  cacheAfter : Cache
  events : List UIEvent

/-- The hiking branch of `loadPlaces` after a cache miss (explore.tsx lines
801-891): fetch and convert the catalog (`conv`/`dist` abstracting
`nztmToWGS84`/`calculateDistance`), filter/sort/cap, publish the placeholder
list, cache exactly that placeholder list (line 884 caches `top20`, not the
enriched items), and emit one per-index enrichment update per item.  The
event list is the batch's own program order: publish first, then the
`forEach` updates. -/
def loadPlacesHiking (env : EnrichEnv) (conv : ℚ → ℚ → ℚ × ℚ)
    (dist : ℚ → ℚ → ℚ → ℚ → ℚ) (docTracks : List DOCTrack)
    (userLoc : LatLng) (searchQuery : String) (now : ℤ) (cache : Cache) :
    HikingRun :=
  let allPlaces := docTracks.map fun track =>
    docTrackToPlace conv dist track userLoc.latitude userLoc.longitude
  let top20 := hikingPipeline allPlaces searchQuery
  { published := top20
    cacheAfter := setCachedPlaces now cache Category.hiking searchQuery top20 userLoc none
    events := UIEvent.publish top20 ::
      top20.enum.map fun ip => UIEvent.enrich ip.1 (enrichPlace env ip.2) }

/-! ## Helper lemmas -/

/-- Equal inputs: `stringSimilarity` returns 1 on syntactically equal inputs (the
`s1 === s2` early return). -/
theorem stringSimilarity_refl (s : String) : stringSimilarity s s = 1 := by
  rw [stringSimilarity]
  simp

/-- The proximity bonus at 10 km or beyond is at most 5 points. -/
theorem distScore_far_le (d : ℚ) (h : 10 ≤ d) : distScore d ≤ 5 := by
  rw [distScore]
  split_ifs with h1 h2 h3 h4 <;> linarith

/-- The proximity bonus under 1 km is exactly 20 points. -/
theorem distScore_near (d : ℚ) (h : d < 1) : distScore d = 20 := by
  rw [distScore, if_pos h]

theorem ratingScore_none : ratingScore none = 0 := rfl

theorem countScore_none : countScore none = 0 := rfl

/-- A present nonzero rating contributes 30 plus the magnitude band. -/
theorem ratingScore_some (r : ℚ) (hr : r ≠ 0) :
    ratingScore (some r) =
      30 + (if r ≥ 9/2 then 10 else if r ≥ 4 then 7 else if r ≥ 7/2 then 5 else 0) := by
  rw [ratingScore]
  have ht : ratingTruthy (some r) = true := by
    simp [ratingTruthy, hr]
  rw [if_pos ht]

/-- A present rating of exactly 0 is JS-falsy and contributes nothing. -/
theorem ratingScore_zero : ratingScore (some 0) = 0 := by
  rw [ratingScore]
  have ht : ratingTruthy (some 0) = false := by
    simp [ratingTruthy]
  rw [ht]
  simp

theorem countScore_some_250 : countScore (some 250) = 20 := by
  rw [countScore]
  norm_num [countTruthy]

theorem countScore_some_500 : countScore (some 500) = 20 := by
  rw [countScore]
  norm_num [countTruthy]

theorem countScore_some_10 : countScore (some 10) = 6 := by
  rw [countScore]
  norm_num [countTruthy]

/-! ## C7 — search-query normalization -/

/-- C7 counterexample: `cleanSearchQuery` does NOT lower-case its input.  On
`"MOUNT EDEN TRACK"` it strips the noise word case-insensitively but
preserves the casing of the remaining words, returning `"MOUNT EDEN hike"`,
which is not a lower-cased string (its own lower-casing differs). -/
theorem cleanSearchQuery_not_lowercased :
    cleanSearchQuery "MOUNT EDEN TRACK" = "MOUNT EDEN hike"
      ∧ jsToLower (cleanSearchQuery "MOUNT EDEN TRACK")
          ≠ cleanSearchQuery "MOUNT EDEN TRACK" := by
  constructor
  · decide
  · decide

/-- C7 as amended: `cleanSearchQuery` strips the fixed noise-word vocabulary
as whole words case-insensitively (preserving the casing of what remains —
it does not lower-case), collapses whitespace, and appends the fixed generic
keyword `" hike"` when anything meaningful remains; when stripping removes
every word the original string is returned unchanged (witnessed by
`"Track"`), so a nonempty trail name never produces an empty query. -/
theorem cleanSearchQuery_amended :
    (∀ name : String, name ≠ "" → cleanSearchQuery name ≠ "")
      ∧ cleanSearchQuery "Track" = "Track"
      ∧ cleanSearchQuery "Tokatoka Scenic Reserve Track" = "Tokatoka hike" := by
  refine ⟨?_, by decide, by decide⟩
  intro name hname
  rw [cleanSearchQuery]
  set cl := collapseWS (searchNoiseWords.foldl (fun acc w => removeWord w acc) name) with hcl
  by_cases h : cl.length > 0
  · rw [if_pos h]
    intro heq
    have : (cl ++ " hike").length = 0 := by rw [heq]; rfl
    rw [String.length_append] at this
    have : (" hike" : String).length = 0 := by omega
    exact absurd this (by decide)
  · rw [if_neg h]
    exact hname

/-- C7 witness for the amended theorem at a concrete nonempty input. -/
theorem cleanSearchQuery_amended_witness :
    cleanSearchQuery "Mount Eden" ≠ "" :=
  cleanSearchQuery_amended.1 "Mount Eden" (by decide)

/-! ## C4 — scorer signal monotonicity -/

/-- C4: (a) an otherwise identical candidate with a 4.7 rating and 250
ratings outscores the unrated one by more than 40 points (the exact gap is
30 + 10 + 20 = 60); (b) raising the rating count from 10 to 500 at a fixed
rating strictly increases the score; (c) moving from under 1 km to 10 km or
beyond at fixed name/rating strictly decreases the score.  `d` is the
abstracted haversine distance (identical for both candidates in (a) and
(b)). -/
theorem scoreMatch_signal_monotonicity :
    (∀ (c : PlaceResult) (name : String) (d : ℚ),
      scoreMatch { c with rating := some (47/10), user_ratings_total := some 250 } name d
        > scoreMatch { c with rating := none, user_ratings_total := none } name d + 40)
    ∧ (∀ (c : PlaceResult) (name : String) (d : ℚ),
      scoreMatch { c with user_ratings_total := some 500 } name d
        > scoreMatch { c with user_ratings_total := some 10 } name d)
    ∧ (∀ (c : PlaceResult) (name : String) (d₁ d₂ : ℚ), d₁ < 1 → 10 ≤ d₂ →
      scoreMatch c name d₁ > scoreMatch c name d₂) := by
  refine ⟨?_, ?_, ?_⟩
  · intro c name d
    have h1 : ratingScore (some (47/10)) = 40 := by
      rw [ratingScore_some (47/10) (by norm_num)]
      norm_num
    simp only [scoreMatch, h1, countScore_some_250, ratingScore_none, countScore_none]
    linarith
  · intro c name d
    simp only [scoreMatch, countScore_some_500, countScore_some_10]
    linarith
  · intro c name d₁ d₂ h1 h2
    have hn := distScore_near d₁ h1
    have hf := distScore_far_le d₂ h2
    simp only [scoreMatch, hn]
    linarith

/-- C4 witness: the three parts at concrete inputs. -/
theorem scoreMatch_signal_monotonicity_witness :
    (scoreMatch { name := "x", types := none, rating := some (47/10),
                  user_ratings_total := some 250 } "x" 0
      > scoreMatch { name := "x", types := none, rating := none,
                     user_ratings_total := none } "x" 0 + 40)
    ∧ (scoreMatch { name := "x", types := none, rating := some 4,
                    user_ratings_total := some 500 } "x" 0
      > scoreMatch { name := "x", types := none, rating := some 4,
                     user_ratings_total := some 10 } "x" 0)
    ∧ (scoreMatch { name := "x", types := none, rating := none,
                    user_ratings_total := none } "x" (1/2)
      > scoreMatch { name := "x", types := none, rating := none,
                     user_ratings_total := none } "x" 10) :=
  ⟨scoreMatch_signal_monotonicity.1
      { name := "x", types := none, rating := none, user_ratings_total := none } "x" 0,
   scoreMatch_signal_monotonicity.2.1
      { name := "x", types := none, rating := some 4, user_ratings_total := none } "x" 0,
   scoreMatch_signal_monotonicity.2.2
      { name := "x", types := none, rating := none, user_ratings_total := none } "x"
      (1/2) 10 (by norm_num) (by norm_num)⟩

/-! ## C5 — flat rating-presence bonus -/

/-- C5 counterexample: a candidate whose rating field is present with the
boundary value 0.0 receives NO rating bonus — `if (result.rating)` is false
for the number 0, so the score is identical to the unrated candidate's
(both 50 here: 30 name + 20 proximity), not 30 points higher as claimed. -/
theorem scoreMatch_rating_zero_no_bonus :
    scoreMatch { name := "x", types := none, rating := some 0,
                 user_ratings_total := none } "x" 0
      = scoreMatch { name := "x", types := none, rating := none,
                     user_ratings_total := none } "x" 0
    ∧ scoreMatch { name := "x", types := none, rating := some 0,
                   user_ratings_total := none } "x" 0 = 50 := by
  have hs : stringSimilarity "x" "x" = 1 := stringSimilarity_refl "x"
  constructor
  · simp only [scoreMatch, ratingScore_zero, ratingScore_none]
  · simp only [scoreMatch, ratingScore_zero, countScore_none, hs]
    have hd : distScore 0 = 20 := distScore_near 0 (by norm_num)
    have ht : typeScore none = 0 := rfl
    rw [hd, ht]
    norm_num

/-- C5 as amended: for every candidate whose rating is present AND nonzero
(JS truthiness — the source's `if (result.rating)` treats a present 0.0
exactly like an absent rating), the scorer adds the flat +30 bonus plus the
banded magnitude bonus (≥4.5: +10, else ≥4.0: +7, else ≥3.5: +5). -/
theorem scoreMatch_rating_presence_bonus (c : PlaceResult) (name : String)
    (d : ℚ) (r : ℚ) (hc : c.rating = some r) (hr : r ≠ 0) :
    scoreMatch c name d
      = scoreMatch { c with rating := none } name d + 30 +
          (if r ≥ 9/2 then 10 else if r ≥ 4 then 7 else if r ≥ 7/2 then 5 else 0) := by
  simp only [scoreMatch, hc, ratingScore_some r hr, ratingScore_none]
  ring

/-- C5 witness for the amended theorem: a 4.7-rated candidate scores exactly
its unrated twin plus 30 plus the ≥4.5 band bonus. -/
theorem scoreMatch_rating_presence_bonus_witness :
    scoreMatch { name := "x", types := none, rating := some (47/10),
                 user_ratings_total := none } "x" 0
      = scoreMatch { name := "x", types := none, rating := none,
                     user_ratings_total := none } "x" 0 + 30 +
          (if (47/10 : ℚ) ≥ 9/2 then 10 else if (47/10 : ℚ) ≥ 4 then 7
           else if (47/10 : ℚ) ≥ 7/2 then 5 else 0) :=
  scoreMatch_rating_presence_bonus
    { name := "x", types := none, rating := some (47/10), user_ratings_total := none }
    "x" 0 (47/10) rfl (by norm_num)

/-! ## C3 — query-cache contract -/

/-- Splitting a character list at a separator that occurs in neither prefix
is unambiguous. -/
theorem colon_split : ∀ (c1 : List Char) (c2 q1 q2 : List Char),
    ':' ∉ c1 → ':' ∉ c2 → c1 ++ ':' :: q1 = c2 ++ ':' :: q2 → c1 = c2 ∧ q1 = q2 := by
  intro c1
  induction c1 with
  | nil =>
    intro c2 q1 q2 _ hc2 h
    cases c2 with
    | nil => simpa using h
    | cons b bs =>
      simp only [List.nil_append, List.cons_append, List.cons.injEq] at h
      exact absurd (h.1 ▸ List.mem_cons_self b bs) (h.1 ▸ fun hm => hc2 (h.1 ▸ List.mem_cons_self b bs))
  | cons a as ih =>
    intro c2 q1 q2 hc1 hc2 h
    cases c2 with
    | nil =>
      simp only [List.cons_append, List.nil_append, List.cons.injEq] at h
      exact absurd (h.1 ▸ List.mem_cons_self a as) (fun _ => hc1 (h.1 ▸ List.mem_cons_self a as))
    | cons b bs =>
      simp only [List.cons_append, List.cons.injEq] at h
      obtain ⟨hab, hrest⟩ := h
      have := ih bs q1 q2 (fun hm => hc1 (List.mem_cons_of_mem a hm))
        (fun hm => hc2 (hab ▸ List.mem_cons_of_mem b hm)) hrest
      exact ⟨by rw [hab, this.1], this.2⟩

/-- No category string contains the `':'` separator. -/
theorem Category.str_no_colon (c : Category) : ':' ∉ c.str.data := by
  cases c <;> decide

/-- The character list of a cache key. -/
theorem getCacheKey_data (c : Category) (q : String) :
    (getCacheKey c q).data = c.str.data ++ ':' :: q.data := by
  rw [getCacheKey]
  show (c.str ++ ":" ++ q).data = _
  rw [String.data_append, String.data_append]
  simp

/-- Distinct `(category, searchText)` pairs produce distinct cache keys. -/
theorem getCacheKey_inj (c c' : Category) (q q' : String)
    (h : getCacheKey c q = getCacheKey c' q') : c = c' ∧ q = q' := by
  have hd : (getCacheKey c q).data = (getCacheKey c' q').data := by rw [h]
  rw [getCacheKey_data, getCacheKey_data] at hd
  obtain ⟨h1, h2⟩ :=
    colon_split c.str.data c'.str.data q.data q'.data
      (Category.str_no_colon c) (Category.str_no_colon c') hd
  refine ⟨?_, String.ext h2⟩
  revert h1
  cases c <;> cases c' <;> decide

/-- C3: the cache contract of `getCachedPlaces`/`setCachedPlaces`.
In order: (1) `put` then `get` on the same key within the 5-minute TTL and
within 1 km of the captured location returns the stored entry; (2) `get` on
an absent key returns absent and leaves the cache untouched; (3) `get` on an
entry older than the TTL evicts it and returns absent; (4) `get` on a fresh
entry whose captured location is more than 1 km from the current one evicts
it and returns absent; (5) `get` under one key is unaffected by a `put`
under any other key, so an entry is never served under a different
`(category, searchText)` key.  `dist` abstracts the haversine
`calculateDistance` (claims (1) and (4) constrain it explicitly), `now`
abstracts `Date.now()`. -/
theorem queryCache_contract :
    (∀ (dist : ℚ → ℚ → ℚ → ℚ → ℚ) (now₁ now₂ : ℤ) (c : Cache) (cat : Category)
        (q : String) (places : List Place) (loc : LatLng) (tok : Option String)
        (cur : LatLng),
      now₂ - now₁ ≤ CACHE_TTL_MS →
      dist loc.latitude loc.longitude cur.latitude cur.longitude
          ≤ LOCATION_CHANGE_THRESHOLD_KM →
      (getCachedPlaces dist now₂ (setCachedPlaces now₁ c cat q places loc tok)
          cat q cur).1
        = some { data := places, timestamp := now₁, location := loc,
                 nextPageToken := tok })
    ∧ (∀ (dist : ℚ → ℚ → ℚ → ℚ → ℚ) (now : ℤ) (c : Cache) (cat : Category)
          (q : String) (cur : LatLng),
        c (getCacheKey cat q) = none →
        getCachedPlaces dist now c cat q cur = (none, c))
    ∧ (∀ (dist : ℚ → ℚ → ℚ → ℚ → ℚ) (now : ℤ) (c : Cache) (cat : Category)
          (q : String) (cur : LatLng) (e : CacheEntry),
        c (getCacheKey cat q) = some e →
        now - e.timestamp > CACHE_TTL_MS →
        (getCachedPlaces dist now c cat q cur).1 = none
          ∧ (getCachedPlaces dist now c cat q cur).2 (getCacheKey cat q) = none)
    ∧ (∀ (dist : ℚ → ℚ → ℚ → ℚ → ℚ) (now : ℤ) (c : Cache) (cat : Category)
          (q : String) (cur : LatLng) (e : CacheEntry),
        c (getCacheKey cat q) = some e →
        ¬(now - e.timestamp > CACHE_TTL_MS) →
        dist e.location.latitude e.location.longitude cur.latitude cur.longitude
            > LOCATION_CHANGE_THRESHOLD_KM →
        (getCachedPlaces dist now c cat q cur).1 = none
          ∧ (getCachedPlaces dist now c cat q cur).2 (getCacheKey cat q) = none)
    ∧ (∀ (dist : ℚ → ℚ → ℚ → ℚ → ℚ) (now₁ now₂ : ℤ) (c : Cache)
          (cat cat' : Category) (q q' : String) (places : List Place)
          (loc : LatLng) (tok : Option String) (cur : LatLng),
        ¬(cat = cat' ∧ q = q') →
        (getCachedPlaces dist now₂ (setCachedPlaces now₁ c cat q places loc tok)
            cat' q' cur).1
          = (getCachedPlaces dist now₂ c cat' q' cur).1) := by
  refine ⟨?_, ?_, ?_, ?_, ?_⟩
  · intro dist now₁ now₂ c cat q places loc tok cur httl hdist
    rw [getCachedPlaces]
    have hk : setCachedPlaces now₁ c cat q places loc tok (getCacheKey cat q)
        = some { data := places, timestamp := now₁, location := loc,
                 nextPageToken := tok } := by
      rw [setCachedPlaces, cacheSet, if_pos rfl]
    rw [hk]
    dsimp only
    rw [if_neg (by simpa using httl)]
    rw [if_neg (by simpa using hdist)]
  · intro dist now c cat q cur h
    rw [getCachedPlaces, h]
  · intro dist now c cat q cur e h httl
    rw [getCachedPlaces, h]
    dsimp only
    rw [if_pos httl]
    exact ⟨rfl, by simp [cacheDelete]⟩
  · intro dist now c cat q cur e h httl hdist
    rw [getCachedPlaces, h]
    dsimp only
    rw [if_neg httl, if_pos hdist]
    exact ⟨rfl, by simp [cacheDelete]⟩
  · intro dist now₁ now₂ c cat cat' q q' places loc tok cur hne
    have hk : setCachedPlaces now₁ c cat q places loc tok (getCacheKey cat' q')
        = c (getCacheKey cat' q') := by
      rw [setCachedPlaces, cacheSet,
        if_neg (fun heq => hne ⟨(getCacheKey_inj cat' cat q' q heq).1.symm,
          (getCacheKey_inj cat' cat q' q heq).2.symm⟩)]
    rw [getCachedPlaces, getCachedPlaces, hk]
    cases hc : c (getCacheKey cat' q') with
    | none => rfl
    | some e =>
      dsimp only
      by_cases h1 : now₂ - e.timestamp > CACHE_TTL_MS
      · rw [if_pos h1, if_pos h1]
      · rw [if_neg h1, if_neg h1]
        by_cases h2 : dist e.location.latitude e.location.longitude
            cur.latitude cur.longitude > LOCATION_CHANGE_THRESHOLD_KM
        · rw [if_pos h2, if_pos h2]
        · rw [if_neg h2, if_neg h2]

/-- C3 witness: all five cache-contract clauses at concrete inputs. -/
theorem queryCache_contract_witness :
    (getCachedPlaces (fun _ _ _ _ => 0) 1000
        (setCachedPlaces 0 emptyCache Category.food "pizza" [] ⟨0, 0⟩ none)
        Category.food "pizza" ⟨0, 0⟩).1
      = some { data := [], timestamp := 0, location := ⟨0, 0⟩, nextPageToken := none }
    ∧ getCachedPlaces (fun _ _ _ _ => 0) 0 emptyCache Category.food "pizza" ⟨0, 0⟩
      = (none, emptyCache)
    ∧ (getCachedPlaces (fun _ _ _ _ => 0) 300001
        (cacheSet (getCacheKey Category.food "pizza")
          { data := [], timestamp := 0, location := ⟨0, 0⟩, nextPageToken := none }
          emptyCache)
        Category.food "pizza" ⟨0, 0⟩).1 = none
    ∧ (getCachedPlaces (fun _ _ _ _ => 2) 0
        (cacheSet (getCacheKey Category.food "pizza")
          { data := [], timestamp := 0, location := ⟨0, 0⟩, nextPageToken := none }
          emptyCache)
        Category.food "pizza" ⟨0, 0⟩).1 = none
    ∧ (getCachedPlaces (fun _ _ _ _ => 0) 0
        (setCachedPlaces 0 emptyCache Category.food "a" [] ⟨0, 0⟩ none)
        Category.fuel "a" ⟨0, 0⟩).1
      = (getCachedPlaces (fun _ _ _ _ => 0) 0 emptyCache Category.fuel "a" ⟨0, 0⟩).1 :=
  ⟨queryCache_contract.1 (fun _ _ _ _ => 0) 0 1000 emptyCache Category.food "pizza"
      [] ⟨0, 0⟩ none ⟨0, 0⟩ (by decide) (by decide),
   queryCache_contract.2.1 (fun _ _ _ _ => 0) 0 emptyCache Category.food "pizza"
      ⟨0, 0⟩ rfl,
   (queryCache_contract.2.2.1 (fun _ _ _ _ => 0) 300001
      (cacheSet (getCacheKey Category.food "pizza")
        { data := [], timestamp := 0, location := ⟨0, 0⟩, nextPageToken := none }
        emptyCache)
      Category.food "pizza" ⟨0, 0⟩
      { data := [], timestamp := 0, location := ⟨0, 0⟩, nextPageToken := none }
      (by simp [cacheSet]) (by decide)).1,
   (queryCache_contract.2.2.2.1 (fun _ _ _ _ => 2) 0
      (cacheSet (getCacheKey Category.food "pizza")
        { data := [], timestamp := 0, location := ⟨0, 0⟩, nextPageToken := none }
        emptyCache)
      Category.food "pizza" ⟨0, 0⟩
      { data := [], timestamp := 0, location := ⟨0, 0⟩, nextPageToken := none }
      (by simp [cacheSet]) (by decide) (by decide)).1,
   queryCache_contract.2.2.2.2 (fun _ _ _ _ => 0) 0 0 emptyCache Category.food
      Category.fuel "a" "a" [] ⟨0, 0⟩ none ⟨0, 0⟩ (by decide)⟩

/-! ## C1/C2 — match selector -/

/-- Any candidate the scoring loop retains (best overall or best rated) came
from the scanned list (or was already in the accumulator). -/
theorem selFold_mem (name : String) (dist : PlaceResult → ℚ) :
    ∀ (l : List PlaceResult) (st : SelState) (c : PlaceResult),
      (((l.foldl (selStep name dist) st).1 = some c → st.1 = some c ∨ c ∈ l)
        ∧ ((l.foldl (selStep name dist) st).2.2.1 = some c →
            st.2.2.1 = some c ∨ c ∈ l)) := by
  intro l
  induction l with
  | nil => intro st c; exact ⟨fun h => Or.inl h, fun h => Or.inl h⟩
  | cons a as ih =>
    intro st c
    obtain ⟨m, s, mr, sr⟩ := st
    constructor
    · intro h
      rw [List.foldl_cons] at h
      rcases (ih (selStep name dist (m, s, mr, sr) a) c).1 h with h' | h'
      · rw [selStep] at h'
        dsimp only at h'
        by_cases hgt : scoreMatch a name (dist a) > s
        · rw [if_pos hgt] at h'
          exact Or.inr (by simp at h'; simp [h'])
        · rw [if_neg hgt] at h'
          exact Or.inl h'
      · exact Or.inr (List.mem_cons_of_mem a h')
    · intro h
      rw [List.foldl_cons] at h
      rcases (ih (selStep name dist (m, s, mr, sr) a) c).2 h with h' | h'
      · rw [selStep] at h'
        dsimp only at h'
        by_cases hgt : (ratingTruthy a.rating
            && decide (scoreMatch a name (dist a) > sr)) = true
        · rw [if_pos hgt] at h'
          exact Or.inr (by simp at h'; simp [h'])
        · rw [if_neg hgt] at h'
          exact Or.inl h'
      · exact Or.inr (List.mem_cons_of_mem a h')

/-- C2 as amended: whenever the selector returns a payload, that payload is
the actual (present and nonzero) rating and the actual rating count of some
candidate in the scanned result list — the selector never fabricates or
defaults a rating; rejection is the distinct `none` outcome.  (The claim's
parenthetical about the unrated high-confidence branch is dropped: the
source's final `if (finalMatch && finalMatch.rating)` guard makes that
branch return `null`, the same outcome as a rejection — see the
counterexample.) -/
theorem selector_never_fabricates (results : List PlaceResult) (name : String)
    (dist : PlaceResult → ℚ) (r : ℚ) (cnt : Option ℕ)
    (h : searchGooglePlacesForTrack results name dist = some (r, cnt)) :
    ∃ c, c ∈ results ∧ c.rating = some r ∧ r ≠ 0 ∧ c.user_ratings_total = cnt := by
  rw [searchGooglePlacesForTrack] at h
  dsimp only at h
  set st := results.foldl (selStep name dist) (none, 0, none, 0) with hst
  obtain ⟨m, s, mr, sr⟩ := st
  dsimp only at h
  by_cases h1 : (mr.isSome && decide (sr ≥ 35)) = true
  · rw [if_pos h1] at h
    cases hmr : mr with
    | none => rw [hmr] at h1; simp at h1
    | some fm =>
      rw [hmr] at h
      dsimp only at h
      cases hrat : fm.rating with
      | none => rw [hrat] at h; simp at h
      | some r' =>
        rw [hrat] at h
        dsimp only at h
        by_cases hr0 : r' ≠ 0
        · rw [if_pos hr0] at h
          obtain ⟨he, hc⟩ : r' = r ∧ fm.user_ratings_total = cnt := by
            have hp := Option.some.inj h
            exact ⟨congrArg Prod.fst hp, congrArg Prod.snd hp⟩
          have hmem : fm ∈ results := by
            rcases (selFold_mem name dist results (none, 0, none, 0) fm).2
                (by rw [← hst]; exact hmr) with h' | h'
            · simp at h'
            · exact h'
          exact ⟨fm, hmem, he ▸ hrat, he ▸ hr0, hc⟩
        · rw [if_neg hr0] at h; simp at h
  · rw [if_neg h1] at h
    by_cases h2 : (m.isSome && decide (s ≥ 50)) = true
    · rw [if_pos h2] at h
      cases hm : m with
      | none => rw [hm] at h2; simp at h2
      | some fm =>
        rw [hm] at h
        dsimp only at h
        cases hrat : fm.rating with
        | none => rw [hrat] at h; simp at h
        | some r' =>
          rw [hrat] at h
          dsimp only at h
          by_cases hr0 : r' ≠ 0
          · rw [if_pos hr0] at h
            obtain ⟨he, hc⟩ : r' = r ∧ fm.user_ratings_total = cnt := by
              have hp := Option.some.inj h
              exact ⟨congrArg Prod.fst hp, congrArg Prod.snd hp⟩
            have hmem : fm ∈ results := by
              rcases (selFold_mem name dist results (none, 0, none, 0) fm).1
                  (by rw [← hst]; exact hm) with h' | h'
              · simp at h'
              · exact h'
            exact ⟨fm, hmem, he ▸ hrat, he ▸ hr0, hc⟩
          · rw [if_neg hr0] at h; simp at h
    · rw [if_neg h2] at h; simp at h

/-- If no scanned candidate has a truthy rating, the selector returns `null`
no matter how high the best overall score is: the best-overall branch feeds
`finalMatch`, but the final `if (finalMatch && finalMatch.rating)` guard then
rejects it. -/
theorem selector_unrated_results_none (results : List PlaceResult)
    (name : String) (dist : PlaceResult → ℚ)
    (hall : ∀ c ∈ results, c.rating = none) :
    searchGooglePlacesForTrack results name dist = none := by
  rw [searchGooglePlacesForTrack]
  dsimp only
  set st := results.foldl (selStep name dist) (none, 0, none, 0) with hst
  obtain ⟨m, s, mr, sr⟩ := st
  dsimp only
  by_cases h1 : (mr.isSome && decide (sr ≥ 35)) = true
  · rw [if_pos h1]
    cases hmr : mr with
    | none => rfl
    | some fm =>
      have hmem : fm ∈ results := by
        rcases (selFold_mem name dist results (none, 0, none, 0) fm).2
            (by rw [← hst]; exact hmr) with h' | h'
        · simp at h'
        · exact h'
      dsimp only
      rw [hall fm hmem]
  · rw [if_neg h1]
    by_cases h2 : (m.isSome && decide (s ≥ 50)) = true
    · rw [if_pos h2]
      cases hm : m with
      | none => rfl
      | some fm =>
        have hmem : fm ∈ results := by
          rcases (selFold_mem name dist results (none, 0, none, 0) fm).1
              (by rw [← hst]; exact hm) with h' | h'
          · simp at h'
          · exact h'
        dsimp only
        rw [hall fm hmem]
    · rw [if_neg h2]

/-- An exact-name, sub-kilometre, relevant-type, unrated candidate scores
exactly 30 + 20 + 10 = 60. -/
theorem scoreMatch_unrated_exact_60 (nm : String) (ts : List String)
    (hty : (ts.any fun t => relevantTypes.contains t) = true) :
    scoreMatch (PlaceResult.mk nm (some ts) none none) nm 0 = 60 := by
  rw [scoreMatch]
  dsimp only
  rw [stringSimilarity_refl, distScore_near 0 (by norm_num), ratingScore_none,
    countScore_none]
  rw [typeScore]
  rw [if_pos hty]
  norm_num

/-- C1, evaluated at the failing input (code bug): a single unrated candidate
with an exact name match, sub-kilometre proximity and a relevant type scores
60 ≥ 50, which the source's own decision comments call a high-confidence
match to be used "even without rating" — yet the function returns `null`
(no match) because of the final `if (finalMatch && finalMatch.rating)`
guard. -/
theorem selector_drops_unrated_high_confidence :
    searchGooglePlacesForTrack [PlaceResult.mk "x" (some ["park"]) none none]
        "x" (fun _ => 0) = none
    ∧ scoreMatch (PlaceResult.mk "x" (some ["park"]) none none) "x"
        ((fun _ => (0 : ℚ)) (PlaceResult.mk "x" (some ["park"]) none none)) ≥ 50 := by
  constructor
  · exact selector_unrated_results_none _ "x" _
      (by intro c hc; rw [List.mem_singleton] at hc; rw [hc])
  · rw [show ((fun _ => (0 : ℚ)) (PlaceResult.mk "x" (some ["park"]) none none)) = 0
      from rfl]
    rw [scoreMatch_unrated_exact_60 "x" ["park"] (by decide)]
    norm_num

/-- C2 counterexample: the "unrated high-confidence acceptance" branch is
observationally NOT an acceptance.  A lone unrated candidate scoring 60 ≥ 50
produces the very same `none` outcome as an empty result list (a genuine
no-match), so no distinct acceptance-without-rating-fields outcome exists. -/
theorem selector_unrated_branch_not_distinct :
    searchGooglePlacesForTrack
        [PlaceResult.mk "y" (some ["natural_feature"]) none none] "y"
        (fun _ => 0)
      = searchGooglePlacesForTrack [] "y" (fun _ => 0)
    ∧ searchGooglePlacesForTrack
        [PlaceResult.mk "y" (some ["natural_feature"]) none none] "y"
        (fun _ => 0) = none
    ∧ scoreMatch (PlaceResult.mk "y" (some ["natural_feature"]) none none) "y"
        ((fun _ => (0 : ℚ)) (PlaceResult.mk "y" (some ["natural_feature"]) none none))
        ≥ 50 := by
  have h1 : searchGooglePlacesForTrack
      [PlaceResult.mk "y" (some ["natural_feature"]) none none] "y"
      (fun _ => 0) = none :=
    selector_unrated_results_none _ "y" _
      (by intro c hc; rw [List.mem_singleton] at hc; rw [hc])
  have h2 : searchGooglePlacesForTrack ([] : List PlaceResult) "y"
      (fun _ => 0) = none :=
    selector_unrated_results_none _ "y" _ (by intro c hc; simp at hc)
  refine ⟨by rw [h1, h2], h1, ?_⟩
  rw [show ((fun _ => (0 : ℚ))
    (PlaceResult.mk "y" (some ["natural_feature"]) none none)) = 0 from rfl]
  rw [scoreMatch_unrated_exact_60 "y" ["natural_feature"] (by decide)]
  norm_num

/-- A rated candidate with exact name, sub-kilometre proximity, relevant
type, rating 4 and 100 ratings scores 30 + 20 + 10 + 37 + 14 = 111. -/
theorem scoreMatch_rated_exact_111 :
    scoreMatch (PlaceResult.mk "x" (some ["park"]) (some 4) (some 100)) "x" 0
      = 111 := by
  rw [scoreMatch]
  dsimp only
  rw [stringSimilarity_refl, distScore_near 0 (by norm_num)]
  rw [typeScore]
  rw [if_pos (by decide : ((["park"] : List String).any
    fun t => relevantTypes.contains t) = true)]
  rw [ratingScore_some 4 (by norm_num)]
  have hcnt : countScore (some 100) = 14 := by
    rw [countScore]
    norm_num [countTruthy]
  rw [hcnt]
  norm_num

/-- The selector accepts the 111-scoring rated candidate and returns its
actual rating and count. -/
theorem selector_accepts_rated_111 :
    searchGooglePlacesForTrack
        [PlaceResult.mk "x" (some ["park"]) (some 4) (some 100)] "x"
        (fun _ => 0)
      = some (4, some 100) := by
  rw [searchGooglePlacesForTrack]
  rw [List.foldl_cons, List.foldl_nil]
  rw [selStep]
  dsimp only
  rw [scoreMatch_rated_exact_111]
  rw [if_pos (by norm_num : (111 : ℚ) > 0)]
  rw [if_pos (show (ratingTruthy (some 4) && decide ((111 : ℚ) > 0)) = true by
    simp only [ratingTruthy, Bool.and_eq_true, bne_iff_ne, ne_eq,
      decide_eq_true_eq]
    norm_num)]
  dsimp only
  rw [if_pos (show ((some (PlaceResult.mk "x" (some ["park"]) (some 4)
      (some 100))).isSome && decide ((111 : ℚ) ≥ 35)) = true by
    simp only [Option.isSome_some, Bool.true_and, decide_eq_true_eq]
    norm_num)]
  dsimp only
  rw [if_pos (by norm_num : (4 : ℚ) ≠ 0)]

/-- C2 witness: at the concrete accepting input, the returned payload is the
accepted candidate's own present nonzero rating and its count. -/
theorem selector_never_fabricates_witness :
    searchGooglePlacesForTrack
        [PlaceResult.mk "x" (some ["park"]) (some 4) (some 100)] "x"
        (fun _ => 0)
      = some (4, some 100)
    ∧ (PlaceResult.mk "x" (some ["park"]) (some 4) (some 100)).rating = some 4
    ∧ (4 : ℚ) ≠ 0
    ∧ (PlaceResult.mk "x" (some ["park"]) (some 4) (some 100)).user_ratings_total
      = some 100 := by
  have hsel := selector_accepts_rated_111
  obtain ⟨c, hc, hr, hr0, hcnt⟩ :=
    selector_never_fabricates
      [PlaceResult.mk "x" (some ["park"]) (some 4) (some 100)] "x"
      (fun _ => 0) 4 (some 100) hsel
  rw [List.mem_singleton] at hc
  subst hc
  exact ⟨hsel, hr, hr0, hcnt⟩

/-! ## C6 — name-similarity symmetry -/

theorem wordMatch_self (a : String) : wordMatch a a = true := by
  rw [wordMatch]
  simp

/-- The word-pair test itself is symmetric (it is the count that is not). -/
theorem wordMatch_comm (a b : String) : wordMatch a b = wordMatch b a := by
  rw [wordMatch, wordMatch]
  by_cases h : a = b
  · subst h; rfl
  · have h1 : (a == b) = false := beq_eq_false_iff_ne.mpr h
    have h2 : (b == a) = false := beq_eq_false_iff_ne.mpr (Ne.symm h)
    rw [h1, h2]
    cases strIncludes a b <;> cases strIncludes b a <;> rfl

/-- When every cross-pair word match is an exact equality, the match loop
counts exactly the tokens occurring in the other list. -/
theorem wordMatch_filter_eq_mem_filter (A B : List String)
    (h : ∀ x ∈ A, ∀ y ∈ B, wordMatch x y = true → x = y) :
    (A.filter fun w1 => B.any fun w2 => wordMatch w1 w2)
      = A.filter fun x => decide (x ∈ B) := by
  apply List.filter_congr
  intro x hx
  by_cases hm : x ∈ B
  · rw [decide_eq_true hm]
    exact List.any_eq_true.mpr ⟨x, hm, wordMatch_self x⟩
  · rw [decide_eq_false hm]
    rw [List.any_eq_false]
    intro y hy
    cases hw : wordMatch x y with
    | false => simp
    | true => exact absurd ((h x hx y hy hw) ▸ hy) hm

/-- For duplicate-free lists, membership filtering is symmetric in length. -/
theorem filter_mem_length_comm (A B : List String) (hA : A.Nodup) (hB : B.Nodup) :
    (A.filter fun x => decide (x ∈ B)).length
      = (B.filter fun x => decide (x ∈ A)).length := by
  rw [← List.toFinset_card_of_nodup (hA.filter _),
    ← List.toFinset_card_of_nodup (hB.filter _)]
  rw [List.toFinset_filter, List.toFinset_filter]
  have key : ∀ (X Y : List String),
      Finset.filter (fun x => decide (x ∈ Y) = true) X.toFinset
        = X.toFinset ∩ Y.toFinset := by
    intro X Y
    rw [Finset.filter_congr (q := fun x => x ∈ Y.toFinset)
      (by intro x _; simp [List.mem_toFinset])]
    exact Finset.filter_mem_eq_inter
  rw [key A B, key B A, Finset.inter_comm]

/-- The arithmetic tail of `stringSimilarity` is symmetric provided both
token lists are duplicate-free and every cross-pair match is an exact
equality. -/
theorem similarityCore_symm (A B : List String) (hA : A.Nodup) (hB : B.Nodup)
    (h : ∀ x ∈ A, ∀ y ∈ B, wordMatch x y = true → x = y) :
    similarityCore A B = similarityCore B A := by
  have h' : ∀ y ∈ B, ∀ x ∈ A, wordMatch y x = true → y = x := by
    intro y hy x hx hw
    exact (h x hx y hy ((wordMatch_comm x y).trans hw)).symm
  have hcnt : (A.filter fun w1 => B.any fun w2 => wordMatch w1 w2).length
      = (B.filter fun w1 => A.any fun w2 => wordMatch w1 w2).length := by
    rw [wordMatch_filter_eq_mem_filter A B h, wordMatch_filter_eq_mem_filter B A h']
    exact filter_mem_length_comm A B hA hB
  rcases A with _ | ⟨a, as⟩
  · rcases B with _ | ⟨b, bs⟩
    · rfl
    · simp only [similarityCore]
      rw [hcnt, Nat.max_comm]
  · rcases B with _ | ⟨b, bs⟩
    · simp only [similarityCore]
      rw [hcnt, Nat.max_comm]
    · simp only [similarityCore]
      rw [hcnt, Nat.max_comm, wordMatch_comm b a]

/-- C6 as amended: `stringSimilarity` is a pure function of its two inputs
(deterministic by construction), and it is symmetric under input swap
whenever each name's surviving token list is duplicate-free and every
cross-pair token match is an exact equality (no proper-substring matches).
Without those conditions symmetry can fail outright — by 0.3, far beyond
floating-point noise — as the counterexample shows. -/
theorem stringSimilarity_swap (a b : String)
    (hA : (finalWordsOf (jsTrim (jsToLower a))).Nodup)
    (hB : (finalWordsOf (jsTrim (jsToLower b))).Nodup)
    (h : ∀ x ∈ finalWordsOf (jsTrim (jsToLower a)),
      ∀ y ∈ finalWordsOf (jsTrim (jsToLower b)), wordMatch x y = true → x = y) :
    stringSimilarity a b = stringSimilarity b a := by
  rw [stringSimilarity, stringSimilarity]
  by_cases heq : jsTrim (jsToLower a) = jsTrim (jsToLower b)
  · rw [if_pos heq, if_pos heq.symm]
  · rw [if_neg heq, if_neg (fun hh => heq hh.symm)]
    exact similarityCore_symm _ _ hA hB h

/-- C6 witness: the amended symmetry at the spec's own motivating pair
(tokens `["tokatoka"]` vs `["tokatoka", "lookout"]`: duplicate-free, and the
only matching cross-pair is the exact equality `"tokatoka"`). -/
theorem stringSimilarity_swap_witness :
    stringSimilarity "Tokatoka Scenic Reserve Track" "Tokatoka Lookout Track"
      = stringSimilarity "Tokatoka Lookout Track" "Tokatoka Scenic Reserve Track" :=
  stringSimilarity_swap "Tokatoka Scenic Reserve Track" "Tokatoka Lookout Track"
    (by decide) (by decide) (by decide)

/-- C6 counterexample: `stringSimilarity` is NOT symmetric under input swap.
For `"a b"` vs `"ab"` the forward direction counts both left tokens as
substring matches of the single right token (2/2, first-token bonus capped
at 1) while the swapped direction counts one of one against two tokens
(1/2 + 0.2 = 0.7): the results differ by 0.3, which no floating-point
order-of-operation noise can account for. -/
theorem stringSimilarity_asymmetric :
    stringSimilarity "a b" "ab" = 1
    ∧ stringSimilarity "ab" "a b" = 7/10
    ∧ stringSimilarity "a b" "ab" ≠ stringSimilarity "ab" "a b" := by
  have h1 : stringSimilarity "a b" "ab" = 1 := by
    have hne : ¬(jsTrim (jsToLower "a b") = jsTrim (jsToLower "ab")) := by decide
    have e1 : finalWordsOf (jsTrim (jsToLower "a b")) = ["a", "b"] := by decide
    have e2 : finalWordsOf (jsTrim (jsToLower "ab")) = ["ab"] := by decide
    rw [stringSimilarity]
    simp only [if_neg hne, e1, e2, similarityCore]
    norm_num [wordMatch, strIncludes, strIncludesAux, List.isPrefixOf]
  have h2 : stringSimilarity "ab" "a b" = 7/10 := by
    have hne : ¬(jsTrim (jsToLower "ab") = jsTrim (jsToLower "a b")) := by decide
    have e1 : finalWordsOf (jsTrim (jsToLower "ab")) = ["ab"] := by decide
    have e2 : finalWordsOf (jsTrim (jsToLower "a b")) = ["a", "b"] := by decide
    rw [stringSimilarity]
    simp only [if_neg hne, e1, e2, similarityCore]
    norm_num [wordMatch, strIncludes, strIncludesAux, List.isPrefixOf]
  exact ⟨h1, h2, by rw [h1, h2]; norm_num⟩

/-! ## C8 — hiking list published before enrichment -/

/-- Everything the pipeline outputs passed the radius filter, the search
filter (when one is active), and came from the input list. -/
theorem hikingPipeline_mem (l : List Place) (q : String) (p : Place)
    (hp : p ∈ hikingPipeline l q) :
    p ∈ l ∧ p.distance < 50
      ∧ (jsTrim q ≠ "" → matchesSearch (jsToLower q) p = true) := by
  rw [hikingPipeline] at hp
  have h1 := (List.take_sublist 20 _).subset hp
  have h2 := (List.perm_insertionSort distLE _).subset h1
  by_cases hq : jsTrim q ≠ ""
  · rw [if_pos hq] at h2
    rw [List.mem_filter] at h2
    obtain ⟨h3, h4⟩ := h2
    rw [List.mem_filter] at h3
    obtain ⟨h5, h6⟩ := h3
    exact ⟨h5, by simpa using h6, fun _ => h4⟩
  · rw [if_neg hq] at h2
    rw [List.mem_filter] at h2
    obtain ⟨h5, h6⟩ := h2
    exact ⟨h5, by simpa using h6, fun hc => absurd hc hq⟩

/-- The pipeline output is sorted by ascending distance. -/
theorem hikingPipeline_sorted (l : List Place) (q : String) :
    List.Sorted distLE (hikingPipeline l q) := by
  rw [hikingPipeline]
  exact List.Pairwise.sublist (List.take_sublist 20 _)
    (List.sorted_insertionSort distLE _)

/-- The pipeline output never exceeds 20 items. -/
theorem hikingPipeline_length_le (l : List Place) (q : String) :
    (hikingPipeline l q).length ≤ 20 := by
  rw [hikingPipeline]
  exact List.length_take_le 20 _

/-- C8: the list the hiking batch publishes before any per-item detail or
rating fetch contains at most 20 items, is sorted by ascending computed
distance, contains only converted records within the 50 km cutoff that pass
the active case-insensitive search filter, and is entirely determined by the
catalog, the geometry functions and the query — it is identical under any
two enrichment environments, i.e. independent of every per-item fetch
outcome. -/
theorem hiking_published_list_spec (env₁ env₂ : EnrichEnv) (conv : ℚ → ℚ → ℚ × ℚ)
    (dist : ℚ → ℚ → ℚ → ℚ → ℚ) (docTracks : List DOCTrack) (userLoc : LatLng)
    (q : String) (now : ℤ) (cache : Cache) :
    (loadPlacesHiking env₁ conv dist docTracks userLoc q now cache).published.length ≤ 20
    ∧ List.Sorted distLE
        (loadPlacesHiking env₁ conv dist docTracks userLoc q now cache).published
    ∧ (∀ p ∈ (loadPlacesHiking env₁ conv dist docTracks userLoc q now cache).published,
        p.distance < 50
          ∧ p ∈ docTracks.map (fun t =>
              docTrackToPlace conv dist t userLoc.latitude userLoc.longitude))
    ∧ (jsTrim q ≠ "" →
        ∀ p ∈ (loadPlacesHiking env₁ conv dist docTracks userLoc q now cache).published,
          matchesSearch (jsToLower q) p = true)
    ∧ (loadPlacesHiking env₁ conv dist docTracks userLoc q now cache).published
      = (loadPlacesHiking env₂ conv dist docTracks userLoc q now cache).published := by
  have hpub : (loadPlacesHiking env₁ conv dist docTracks userLoc q now cache).published
      = hikingPipeline (docTracks.map fun t =>
          docTrackToPlace conv dist t userLoc.latitude userLoc.longitude) q := rfl
  refine ⟨?_, ?_, ?_, ?_, rfl⟩
  · rw [hpub]; exact hikingPipeline_length_le _ _
  · rw [hpub]; exact hikingPipeline_sorted _ _
  · intro p hp
    rw [hpub] at hp
    obtain ⟨h1, h2, _⟩ := hikingPipeline_mem _ _ _ hp
    exact ⟨h2, h1⟩
  · intro hq p hp
    rw [hpub] at hp
    exact (hikingPipeline_mem _ _ _ hp).2.2 hq

def c8Track : DOCTrack :=
  { assetId := "a1", name := "Alpha Spur", introduction := none,
    introductionThumbnail := none, distance := none, walkDuration := none,
    walkDurationCategory := none, walkTrackCategory := none,
    region := some ["North"], staticLink := none, x := 0, y := 0 }

def c8Conv : ℚ → ℚ → ℚ × ℚ := fun x y => (x, y)

def c8Dist : ℚ → ℚ → ℚ → ℚ → ℚ := fun _ _ _ _ => 0

def c8Env : EnrichEnv := ⟨fun _ => none, fun _ _ _ => none⟩

/-- C8 witness: one concrete batch with an active search filter. -/
theorem hiking_published_list_spec_witness :
    (loadPlacesHiking c8Env c8Conv c8Dist [c8Track] ⟨0, 0⟩ "alpha" 0
        emptyCache).published.length ≤ 20
    ∧ List.Sorted distLE
        (loadPlacesHiking c8Env c8Conv c8Dist [c8Track] ⟨0, 0⟩ "alpha" 0
          emptyCache).published
    ∧ (docTrackToPlace c8Conv c8Dist c8Track 0 0).distance < 50
    ∧ matchesSearch (jsToLower "alpha") (docTrackToPlace c8Conv c8Dist c8Track 0 0)
      = true :=
  ⟨(hiking_published_list_spec c8Env c8Env c8Conv c8Dist [c8Track] ⟨0, 0⟩ "alpha" 0
      emptyCache).1,
   (hiking_published_list_spec c8Env c8Env c8Conv c8Dist [c8Track] ⟨0, 0⟩ "alpha" 0
      emptyCache).2.1,
   ((hiking_published_list_spec c8Env c8Env c8Conv c8Dist [c8Track] ⟨0, 0⟩ "alpha" 0
      emptyCache).2.2.1 (docTrackToPlace c8Conv c8Dist c8Track 0 0) (by decide)).1,
   (hiking_published_list_spec c8Env c8Env c8Conv c8Dist [c8Track] ⟨0, 0⟩ "alpha" 0
      emptyCache).2.2.2.1 (by decide) (docTrackToPlace c8Conv c8Dist c8Track 0 0)
      (by decide)⟩

/-! ## C9 — stale enrichment results and the visible list -/

def c9Conv : ℚ → ℚ → ℚ × ℚ := fun x y => (x, y)

def c9Dist : ℚ → ℚ → ℚ → ℚ → ℚ := fun _ _ _ _ => 0

def c9Detail : DOCTrack :=
  { assetId := "t1", name := "Alpha", introduction := none,
    introductionThumbnail := none, distance := some "4 km one way",
    walkDuration := some "2 hr", walkDurationCategory := none,
    walkTrackCategory := none, region := none, staticLink := some "doc/t1",
    x := 0, y := 0 }

def c9Env : EnrichEnv := ⟨fun _ => some c9Detail, fun _ _ _ => none⟩

def c9T1 : DOCTrack :=
  { assetId := "t1", name := "Alpha", introduction := none,
    introductionThumbnail := none, distance := none, walkDuration := none,
    walkDurationCategory := none, walkTrackCategory := none, region := none,
    staticLink := none, x := 0, y := 0 }

def c9T2 : DOCTrack :=
  { assetId := "t2", name := "Beta", introduction := none,
    introductionThumbnail := none, distance := none, walkDuration := none,
    walkDurationCategory := none, walkTrackCategory := none, region := none,
    staticLink := none, x := 0, y := 0 }

/-- Batch 1: catalog `[c9T1]`. -/
def c9B1 : HikingRun := loadPlacesHiking c9Env c9Conv c9Dist [c9T1] ⟨0, 0⟩ "" 0 emptyCache

/-- Batch 2 (superseding search over catalog `[c9T2]`). -/
def c9B2 : HikingRun := loadPlacesHiking c9Env c9Conv c9Dist [c9T2] ⟨0, 0⟩ "" 0 emptyCache

/-- C9 counterexample: a stage-3 enrichment update of a superseded batch IS
merged into the currently visible list.  Batch 1 publishes, batch 2
supersedes it and publishes its own list, then batch 1's pending per-index
`setPlaces` update resolves: the visible list is now batch 1's enriched item
— not batch 2's published list.  No generation tag exists to discard it. -/
theorem stale_enrichment_mutates_current_list :
    runUI [] (c9B1.events.take 1 ++ c9B2.events.take 1 ++ c9B1.events.drop 1)
      ≠ c9B2.published
    ∧ runUI [] (c9B1.events.take 1 ++ c9B2.events.take 1 ++ c9B1.events.drop 1)
      = [enrichPlace c9Env (docTrackToPlace c9Conv c9Dist c9T1 0 0)] := by
  constructor
  · decide
  · decide

/-- C9 as amended: the per-item updates carry no batch/generation tag, so a
pending update from a superseded batch, resolving after the new batch's
publish, overwrites the currently visible list at its captured index — the
visible list then differs from the new batch's published list whenever the
stale item differs from the new item at that index. -/
theorem stale_enrichment_applies_by_index (v cur : List Place) (i : ℕ)
    (p : Place) (h : i < cur.length) :
    runUI v [UIEvent.publish cur, UIEvent.enrich i p] = cur.set i p
    ∧ (p ≠ cur.get ⟨i, h⟩ →
        runUI v [UIEvent.publish cur, UIEvent.enrich i p] ≠ cur) := by
  constructor
  · rfl
  · intro hne heq
    apply hne
    have hset : cur.set i p = cur := heq
    have hval : (cur.set i p)[i]? = some p := by
      rw [List.getElem?_set_self (by simpa using h)]
    rw [hset] at hval
    rw [List.getElem?_eq_getElem h] at hval
    rw [List.get_eq_getElem]
    exact (Option.some.inj hval).symm

/-- C9 witness for the amended theorem: a concretely superseded batch's
stale item overwrites the new batch's one-element list. -/
theorem stale_enrichment_applies_by_index_witness :
    runUI []
        [UIEvent.publish [docTrackToPlace c9Conv c9Dist c9T2 0 0],
         UIEvent.enrich 0 (enrichPlace c9Env (docTrackToPlace c9Conv c9Dist c9T1 0 0))]
      ≠ [docTrackToPlace c9Conv c9Dist c9T2 0 0] :=
  (stale_enrichment_applies_by_index []
      [docTrackToPlace c9Conv c9Dist c9T2 0 0] 0
      (enrichPlace c9Env (docTrackToPlace c9Conv c9Dist c9T1 0 0))
      (by decide)).2 (by decide)

/-! ## C10 — the cache stores only the pre-enrichment list -/

/-- C10: per-item enrichment never reaches the cache.  Whatever entry a
fresh read of the hiking key returns after a batch ran is exactly the
pre-enrichment placeholder list: every item in it has `docLink`,
`trackDistance`, `walkDuration`, `rating` and `user_ratings_total` absent,
and the written cache state is identical under every enrichment environment
— even one in which every detail and rating fetch succeeded. -/
theorem cache_stores_preenrichment_list (env : EnrichEnv) (conv : ℚ → ℚ → ℚ × ℚ)
    (dist : ℚ → ℚ → ℚ → ℚ → ℚ) (docTracks : List DOCTrack) (userLoc : LatLng)
    (q : String) (now : ℤ) (cache : Cache) (dist' : ℚ → ℚ → ℚ → ℚ → ℚ)
    (now' : ℤ) (cur : LatLng) (e : CacheEntry)
    (h : (getCachedPlaces dist' now'
        (loadPlacesHiking env conv dist docTracks userLoc q now cache).cacheAfter
        Category.hiking q cur).1 = some e) :
    (∀ p ∈ e.data, p.docLink = none ∧ p.trackDistance = none
      ∧ p.walkDuration = none ∧ p.rating = none ∧ p.user_ratings_total = none)
    ∧ e.data = (loadPlacesHiking env conv dist docTracks userLoc q now cache).published
    ∧ (∀ env' : EnrichEnv,
        (loadPlacesHiking env' conv dist docTracks userLoc q now cache).cacheAfter
          = (loadPlacesHiking env conv dist docTracks userLoc q now cache).cacheAfter) := by
  have hdata : e.data
      = (loadPlacesHiking env conv dist docTracks userLoc q now cache).published := by
    rw [getCachedPlaces] at h
    have hk : (loadPlacesHiking env conv dist docTracks userLoc q now cache).cacheAfter
        (getCacheKey Category.hiking q)
        = some { data := (loadPlacesHiking env conv dist docTracks userLoc q now
                  cache).published,
                 timestamp := now, location := userLoc, nextPageToken := none } := by
      show cacheSet (getCacheKey Category.hiking q) _ _ _ = _
      rw [cacheSet, if_pos rfl]
      rfl
    rw [hk] at h
    dsimp only at h
    by_cases h1 : now' - now > CACHE_TTL_MS
    · rw [if_pos h1] at h; simp at h
    · rw [if_neg h1] at h
      by_cases h2 : dist' userLoc.latitude userLoc.longitude cur.latitude
          cur.longitude > LOCATION_CHANGE_THRESHOLD_KM
      · rw [if_pos h2] at h; simp at h
      · rw [if_neg h2] at h
        have := Option.some.inj h
        rw [← this]
  refine ⟨?_, hdata, fun _ => rfl⟩
  intro p hp
  rw [hdata] at hp
  have hp' : p ∈ hikingPipeline (docTracks.map fun t =>
      docTrackToPlace conv dist t userLoc.latitude userLoc.longitude) q := hp
  obtain ⟨h1, _, _⟩ := hikingPipeline_mem _ _ _ hp'
  rw [List.mem_map] at h1
  obtain ⟨t, _, rfl⟩ := h1
  exact ⟨rfl, rfl, rfl, rfl, rfl⟩

def c10Conv : ℚ → ℚ → ℚ × ℚ := fun x y => (x, y)

def c10Dist : ℚ → ℚ → ℚ → ℚ → ℚ := fun _ _ _ _ => 0

def c10T : DOCTrack :=
  { assetId := "g1", name := "Gamma", introduction := none,
    introductionThumbnail := none, distance := none, walkDuration := none,
    walkDurationCategory := none, walkTrackCategory := none, region := none,
    staticLink := none, x := 0, y := 0 }

def c10Detail : DOCTrack :=
  { assetId := "g1", name := "Gamma", introduction := none,
    introductionThumbnail := some "thumb", distance := some "3.1 km one way",
    walkDuration := some "2 hr 30 min", walkDurationCategory := none,
    walkTrackCategory := none, region := none, staticLink := some "doc/g1",
    x := 0, y := 0 }

/-- An environment in which both the detail fetch and the rating lookup
succeed for every item. -/
def c10Env : EnrichEnv := ⟨fun _ => some c10Detail, fun _ _ _ => some (4, some 50)⟩

/-- C10 witness: after a batch under the all-fetches-succeed environment, a
fresh cache read still serves the bare placeholder item. -/
theorem cache_stores_preenrichment_list_witness :
    (docTrackToPlace c10Conv c10Dist c10T 0 0).docLink = none
    ∧ (docTrackToPlace c10Conv c10Dist c10T 0 0).trackDistance = none
    ∧ (docTrackToPlace c10Conv c10Dist c10T 0 0).walkDuration = none
    ∧ (docTrackToPlace c10Conv c10Dist c10T 0 0).rating = none
    ∧ (docTrackToPlace c10Conv c10Dist c10T 0 0).user_ratings_total = none :=
  (cache_stores_preenrichment_list c10Env c10Conv c10Dist [c10T] ⟨0, 0⟩ "" 0
      emptyCache (fun _ _ _ _ => 0) 0 ⟨0, 0⟩
      { data := [docTrackToPlace c10Conv c10Dist c10T 0 0], timestamp := 0,
        location := ⟨0, 0⟩, nextPageToken := none }
      (by decide)).1
    (docTrackToPlace c10Conv c10Dist c10T 0 0) (by decide)
